import Mathlib

/-!
Verification of the data-access and authorization core of the
caddy-duckdb module (Go sources under src/).

The Go code is shallowly embedded: pure helpers become Lean functions,
the mutable caches (sync.Map fields of Manager, the LRU caches of
Authorizer) become association lists threaded through explicit state,
and the embedded database engine is abstracted by an environment of
oracles.  Go errors are modelled as Option String (none = nil) or
Except String.  Time instants are naturals (milliseconds).
-/

namespace CaddyDuckDB

/-- Model of Go `interface{}` values flowing through the data layer
(`nil` is `Value.null`; `in`-filters carry a `Value.list`). -/
inductive Value where
  | null
  | str (s : String)
  | int (n : Int)
  | boolean (b : Bool)
  | list (vs : List Value)

/-- Model of the Go test `val != nil` (negated) on an `interface{}` value. -/
def Value.isNull : Value → Bool
  | .null => true
  | _ => false

/-! ### String helpers (models of Go strings.Contains / strings.ToLower) -/

/-- Does the second list start the first? -/
def charsStartWith : List Char → List Char → Bool
  | _, [] => true
  | [], _ :: _ => false
  | c :: cs, p :: ps => c = p && charsStartWith cs ps

/-- Does `pat` occur as a contiguous run inside the list? -/
def charsContainsSub (pat : List Char) : List Char → Bool
  | [] => charsStartWith [] pat
  | c :: rest => charsStartWith (c :: rest) pat || charsContainsSub pat rest

/-- Model of Go `strings.Contains hay pat`. -/
def strContainsSub (hay pat : String) : Bool :=
  charsContainsSub pat.data hay.data

/-- Model of Go `strings.ToLower`, character by character. -/
def strToLower (s : String) : String := ⟨s.data.map Char.toLower⟩

/-! ### Conflict classification and retry (src/unnamed/part_006, lines 28-66) -/

/-- Model of a Go `error` result: `none` is nil, `some msg` an error whose
`Error()` string is `msg`. -/
abbrev GoErr := Option String

def maxRetries : Nat := 3

/-- `baseRetryDelay = 50 * time.Millisecond`, in milliseconds. -/
def baseRetryDelayMs : Nat := 50

/-- `isTransactionConflict`: a nil error is not a conflict; otherwise the
lower-cased message is searched for the two conflict substrings. -/
def isTransactionConflict (err : GoErr) : Bool :=
  match err with
  | none => false
  | some msg =>
      let errStr := strToLower msg
      strContainsSub errStr "transaction conflict" || strContainsSub errStr "conflict on table"

/-- Observable outcome of `retryOnConflict`: the returned error (`none` =
success), the number of times the wrapped closure ran, and the total
milliseconds slept between attempts (instrumentation of `time.Sleep`). -/
structure RetryOutcome where
  err : GoErr
  attempts : Nat
  sleptMs : Nat
deriving DecidableEq, Repr

/-- The loop of `retryOnConflict` (`for attempt := 0; attempt < maxRetries;
attempt++`).  `fn attempt` is the error outcome of the closure on that
attempt; `remaining` counts the iterations still allowed, so the loop is
entered with `remaining = maxRetries` and `attempt = 0`.  The sleep between
attempts is `baseRetryDelay * 2^attempt` (the `math.Pow` backoff), taken
only while `attempt < maxRetries-1`. -/
def retryLoop (fn : Nat → GoErr) : Nat → Nat → GoErr → Nat → RetryOutcome
  | 0, attempt, lastErr, slept =>
      { err := some ("transaction failed after " ++ toString maxRetries ++ " retries: "
            ++ lastErr.getD ""),
        attempts := attempt, sleptMs := slept }
  | remaining + 1, attempt, _, slept =>
      match fn attempt with
      | none => { err := none, attempts := attempt + 1, sleptMs := slept }
      | some e =>
          if isTransactionConflict (some e) then
            if attempt < maxRetries - 1 then
              retryLoop fn remaining (attempt + 1) (some e)
                (slept + baseRetryDelayMs * 2 ^ attempt)
            else
              retryLoop fn remaining (attempt + 1) (some e) slept
          else
            { err := some e, attempts := attempt + 1, sleptMs := slept }

/-- `retryOnConflict` from src/unnamed/part_006. -/
def retryOnConflict (fn : Nat → GoErr) : RetryOutcome :=
  retryLoop fn maxRetries 0 none 0

/-! ### Prepared-statement cache and schema-cache invalidation
(src/unnamed/part_006 getOrPrepare*, src/unnamed/part_007 lines 523-544) -/

/-- A live prepared statement: an identity (handle) plus the SQL it was
prepared from.  Two cache hits return the identical instance iff the ids
agree. -/
structure Stmt where
  id : Nat
  sql : String
deriving DecidableEq, Repr

/-- Association-list lookup with propositional key comparison (model of
sync.Map.Load / LRU.Get). -/
def alookup {α : Type} (k : String) : List (String × α) → Option α
  | [] => none
  | (k2, v) :: rest => if k2 = k then some v else alookup k rest

/-- Key of the cached INSERT statement of a table
(`fmt.Sprintf("%s:insert", table)`). -/
def insertStmtKey (table : String) : String := table ++ ":insert"

/-- The per-entry test of `InvalidateTableSchema`: Go checks
`len(stmtKey) >= len(table) && stmtKey[:len(table)] == table`, i.e. that
the raw table name is a prefix of the cache key. -/
def invalidationMatches (table stmtKey : String) : Bool :=
  decide (table.length ≤ stmtKey.length) &&
    (stmtKey.data.take table.length == table.data)

/-- Effect of `InvalidateTableSchema` on the preparedStmts cache: every
entry whose key satisfies `invalidationMatches` is closed and deleted. -/
def invalidatePreparedStmts (table : String) (cache : List (String × Stmt)) :
    List (String × Stmt) :=
  cache.filter (fun e => !(invalidationMatches table e.1))

/-! ### Column canonicalization (sortStrings in src/unnamed/part_006) -/

/-- Character-list lexicographic comparison.  Models the order Go uses on
identifier strings (bytewise UTF-8 comparison, which agrees with
codepoint-wise comparison). -/
def charsLe : List Char → List Char → Bool
  | [], _ => true
  | _ :: _, [] => false
  | a :: as, b :: bs => if a < b then true else if a = b then charsLe as bs else false

/-- Lexicographic `≤` on strings.  The exchange sort in the source swaps on
`s[i] > s[j]`, i.e. keeps adjacent pairs exactly when `s[i] <= s[j]`. -/
def strLe (a b : String) : Bool := charsLe a.data b.data

/-- The relation the statement-cache canonicalization sorts by. -/
def strLeRel (a b : String) : Prop := strLe a b = true

/-- Decidability of `strLeRel` (a boolean comparison). -/
def strLeDec : DecidableRel strLeRel := fun a b => Bool.decEq (strLe a b) true

/-- `sortStrings` from src/unnamed/part_006 (local helper of
getOrPrepareUpdate/getOrPrepareDelete/UpdateWithFilters).  The source sorts
in place with a quadratic exchange sort on `>`; every comparison sort
computes the same (unique) lexicographically sorted permutation of its
input, modelled here by insertion sort over the same order. -/
def sortStrings (l : List String) : List String :=
  @List.insertionSort String strLeRel strLeDec l

/-! ### Manager state, engine environment, query construction
(src/unnamed/part_006 and part_007) -/

/-- The mutable caches of `Manager` (its two sync.Map fields) plus a counter
producing fresh statement handles. -/
structure MgrState where
  tableSchemas : List (String × List String)
  preparedStmts : List (String × Stmt)
  nextStmtId : Nat

/-- `InvalidateTableSchema` (src/unnamed/part_007): deletes the table's
schema entry and closes and deletes every prepared statement whose cache
key passes the raw-prefix test `invalidationMatches`. -/
def InvalidateTableSchema (table : String) (st : MgrState) : MgrState :=
  { st with
      tableSchemas := st.tableSchemas.filter (fun e => !(decide (e.1 = table))),
      preparedStmts := invalidatePreparedStmts table st.preparedStmts }

/-- Observable interactions with the embedded engine. -/
inductive Event where
  | beginTx
  | prepare (sql : String)
  | execStmt (stmtId : Nat) (values : List Value)
  | execSQL (sql : String) (values : List Value)
  | commit
  | rollback

/-- Environment abstracting the embedded database engine: the
information_schema contents and the outcome of executing a statement
(`execErr` = none means success; commit failures are folded into it). -/
structure ExecEnv where
  infoSchema : String → List String
  execErr : String → List Value → GoErr
  rowsAffected : String → List Value → Int

/-- Model of Go `strings.Join parts sep`. -/
def joinSep (sep : String) : List String → String
  | [] => ""
  | [x] => x
  | x :: y :: rest => x ++ sep ++ joinSep sep (y :: rest)

/-- Pair each element with a 1-based (or shifted) running index, as the Go
`for i, col := range cols` loops do. -/
def numberFrom (start : Nat) : List String → List (Nat × String)
  | [] => []
  | c :: rest => (start, c) :: numberFrom (start + 1) rest

/-- A positional parameter `$n`. -/
def placeholder (n : Nat) : String := "$" ++ toString n

/-- `INSERT INTO t (c1, ...) VALUES ($1, ...)` over the full column list. -/
def insertQuery (table : String) (columns : List String) : String :=
  "INSERT INTO " ++ table ++ " (" ++ joinSep ", " columns ++ ") VALUES (" ++
    joinSep ", " ((numberFrom 1 columns).map (fun p => placeholder p.1)) ++ ")"

/-- The prepared-UPDATE text built by getOrPrepareUpdate from the sorted
column lists. -/
def updateQuery (table : String) (setCols whereCols : List String) : String :=
  "UPDATE " ++ table ++ " SET " ++
    joinSep ", " ((numberFrom 1 setCols).map (fun p => p.2 ++ " = " ++ placeholder p.1)) ++
    " WHERE " ++
    joinSep " AND "
      ((numberFrom (setCols.length + 1) whereCols).map (fun p => p.2 ++ " = " ++ placeholder p.1))

/-- The prepared-DELETE text built by getOrPrepareDelete. -/
def deleteQuery (table : String) (whereCols : List String) : String :=
  "DELETE FROM " ++ table ++ " WHERE " ++
    joinSep " AND " ((numberFrom 1 whereCols).map (fun p => p.2 ++ " = " ++ placeholder p.1))

/-- Cache key of getOrPrepareUpdate (built from the already-sorted lists):
`table:update:set=c1,c2:where=d1,d2`. -/
def updateStmtKey (table : String) (setCols whereCols : List String) : String :=
  table ++ ":update:set=" ++ joinSep "," setCols ++ ":where=" ++ joinSep "," whereCols

/-- Cache key of getOrPrepareDelete: `table:delete:where=c1,c2`. -/
def deleteStmtKey (table : String) (whereCols : List String) : String :=
  table ++ ":delete:where=" ++ joinSep "," whereCols

/-- `getTableColumns` (src/unnamed/part_007): schema-cache hit returns the
cached ordered column list; a miss introspects information_schema, rejects
tables reporting zero columns, and caches the result. -/
def getTableColumns (env : ExecEnv) (table : String) (st : MgrState) :
    Except String (List String) × MgrState :=
  match alookup table st.tableSchemas with
  | some cols => (.ok cols, st)
  | none =>
      let columns := env.infoSchema table
      if columns.isEmpty then
        (.error ("table " ++ table ++ " has no columns or does not exist"), st)
      else
        (.ok columns, { st with tableSchemas := (table, columns) :: st.tableSchemas })

/-- `getOrPrepareInsert`: one statement per table, keyed `table:insert`,
built over the table's full column list.  Statement preparation by the
engine is modelled as succeeding; engine failures surface via `execErr`. -/
def getOrPrepareInsert (table : String) (columns : List String) (st : MgrState) :
    Stmt × MgrState × List Event :=
  let stmtKey := insertStmtKey table
  match alookup stmtKey st.preparedStmts with
  | some cached => (cached, st, [])
  | none =>
      let query := insertQuery table columns
      let stmt : Stmt := ⟨st.nextStmtId, query⟩
      (stmt,
        { st with preparedStmts := (stmtKey, stmt) :: st.preparedStmts,
                  nextStmtId := st.nextStmtId + 1 },
        [Event.prepare query])

/-- Normalization inside Insert: the bound list follows the full column
list, caller-supplied fields keep their value, omitted columns become NULL. -/
def normalizeInsertValues (data : List (String × Value)) (columns : List String) :
    List Value :=
  columns.map (fun col =>
    match alookup col data with
    | some v => v
    | none => Value.null)

structure InsertResult where
  rowsAffected : Int
deriving DecidableEq, Repr

structure UpdateResult where
  rowsAffected : Int
deriving DecidableEq, Repr

structure DeleteResult where
  rowsAffected : Int
deriving DecidableEq, Repr

/-- One run of the closure `Insert` passes to retryOnConflict: get/prepare
the table's INSERT statement, normalize the values, execute in a fresh
transaction. -/
def insertAttempt (env : ExecEnv) (table : String) (data : List (String × Value))
    (columns : List String) (st : MgrState) :
    Except String InsertResult × MgrState × List Event :=
  let (stmt, st1, ev1) := getOrPrepareInsert table columns st
  let values := normalizeInsertValues data columns
  let ev2 := ev1 ++ [Event.beginTx, Event.execStmt stmt.id values]
  match env.execErr stmt.sql values with
  | some e => (.error ("failed to execute insert: " ++ e), st1, ev2 ++ [Event.rollback])
  | none => (.ok ⟨env.rowsAffected stmt.sql values⟩, st1, ev2 ++ [Event.commit])

/-- `Insert` from src/unnamed/part_006 (single attempt of the retried
closure; the retry wrapper is `retryOnConflict`).  The caller field map is
an association list, Go map iteration order being the list order. -/
def Insert (env : ExecEnv) (table : String) (data : List (String × Value))
    (st : MgrState) : Except String InsertResult × MgrState × List Event :=
  if data.isEmpty then
    (.error "no data provided for insert", st, [])
  else
    match getTableColumns env table st with
    | (.error e, st1) => (.error ("failed to get table schema: " ++ e), st1, [])
    | (.ok columns, st1) => insertAttempt env table data columns st1

/-- `getOrPrepareUpdate`: extracts the SET and WHERE column names, sorts both
lists for cache-key stability, and returns the cached statement or prepares
and caches a new one (returning the ordered column lists for value binding). -/
def getOrPrepareUpdate (table : String) (set whereM : List (String × Value))
    (st : MgrState) : Stmt × List String × List String × MgrState × List Event :=
  let setCols := sortStrings (set.map Prod.fst)
  let whereCols := sortStrings (whereM.map Prod.fst)
  let stmtKey := updateStmtKey table setCols whereCols
  match alookup stmtKey st.preparedStmts with
  | some cached => (cached, setCols, whereCols, st, [])
  | none =>
      let query := updateQuery table setCols whereCols
      let stmt : Stmt := ⟨st.nextStmtId, query⟩
      (stmt, setCols, whereCols,
        { st with preparedStmts := (stmtKey, stmt) :: st.preparedStmts,
                  nextStmtId := st.nextStmtId + 1 },
        [Event.prepare query])

/-- One run of the closure `Update` retries: bind SET values then WHERE
values in the statement's column order and execute in a transaction. -/
def updateAttempt (env : ExecEnv) (table : String) (set whereM : List (String × Value))
    (st : MgrState) : Except String UpdateResult × MgrState × List Event :=
  let (stmt, setCols, whereCols, st1, ev1) := getOrPrepareUpdate table set whereM st
  let values := setCols.map (fun c => (alookup c set).getD Value.null) ++
      whereCols.map (fun c => (alookup c whereM).getD Value.null)
  let ev2 := ev1 ++ [Event.beginTx, Event.execStmt stmt.id values]
  match env.execErr stmt.sql values with
  | some e => (.error ("failed to execute update: " ++ e), st1, ev2 ++ [Event.rollback])
  | none => (.ok ⟨env.rowsAffected stmt.sql values⟩, st1, ev2 ++ [Event.commit])

/-- `Update` (map-based variant) from src/unnamed/part_006. -/
def Update (env : ExecEnv) (table : String) (set whereM : List (String × Value))
    (st : MgrState) : Except String UpdateResult × MgrState × List Event :=
  if set.isEmpty then (.error "no data provided for update", st, [])
  else if whereM.isEmpty then
    (.error "no where clause provided for update (use DELETE with caution)", st, [])
  else updateAttempt env table set whereM st

/-- `getOrPrepareDelete`: sorted WHERE columns, key `table:delete:where=...`. -/
def getOrPrepareDelete (table : String) (whereM : List (String × Value))
    (st : MgrState) : Stmt × List String × MgrState × List Event :=
  let whereCols := sortStrings (whereM.map Prod.fst)
  let stmtKey := deleteStmtKey table whereCols
  match alookup stmtKey st.preparedStmts with
  | some cached => (cached, whereCols, st, [])
  | none =>
      let query := deleteQuery table whereCols
      let stmt : Stmt := ⟨st.nextStmtId, query⟩
      (stmt, whereCols,
        { st with preparedStmts := (stmtKey, stmt) :: st.preparedStmts,
                  nextStmtId := st.nextStmtId + 1 },
        [Event.prepare query])

/-- One run of the closure `Delete` retries. -/
def deleteAttempt (env : ExecEnv) (table : String) (whereM : List (String × Value))
    (st : MgrState) : Except String DeleteResult × MgrState × List Event :=
  let (stmt, whereCols, st1, ev1) := getOrPrepareDelete table whereM st
  let values := whereCols.map (fun c => (alookup c whereM).getD Value.null)
  let ev2 := ev1 ++ [Event.beginTx, Event.execStmt stmt.id values]
  match env.execErr stmt.sql values with
  | some e => (.error ("failed to execute delete: " ++ e), st1, ev2 ++ [Event.rollback])
  | none => (.ok ⟨env.rowsAffected stmt.sql values⟩, st1, ev2 ++ [Event.commit])

/-- `Delete` (map-based variant) from src/unnamed/part_006. -/
def Delete (env : ExecEnv) (table : String) (whereM : List (String × Value))
    (st : MgrState) : Except String DeleteResult × MgrState × List Event :=
  if whereM.isEmpty then
    (.error "no where clause provided for delete (safety check)", st, [])
  else deleteAttempt env table whereM st

/-! ### Filter / Sort translation (src/unnamed/part_006, lines 602-647) -/

/-- A query filter term. -/
structure Filter where
  column : String
  operator : String
  value : Value

/-- `Filter.ToSQL`: the Go switch over the operator, rendered as the
corresponding chain of equality tests; the default branch falls back to
equality.  Returns the predicate fragment and the value to bind. -/
def Filter.ToSQL (f : Filter) (paramIndex : Nat) : String × Value :=
  if f.operator = "eq" then (f.column ++ " = " ++ placeholder paramIndex, f.value)
  else if f.operator = "ne" then (f.column ++ " != " ++ placeholder paramIndex, f.value)
  else if f.operator = "gt" then (f.column ++ " > " ++ placeholder paramIndex, f.value)
  else if f.operator = "gte" then (f.column ++ " >= " ++ placeholder paramIndex, f.value)
  else if f.operator = "lt" then (f.column ++ " < " ++ placeholder paramIndex, f.value)
  else if f.operator = "lte" then (f.column ++ " <= " ++ placeholder paramIndex, f.value)
  else if f.operator = "like" then (f.column ++ " LIKE " ++ placeholder paramIndex, f.value)
  else if f.operator = "in" then (f.column ++ " IN " ++ placeholder paramIndex, f.value)
  else (f.column ++ " = " ++ placeholder paramIndex, f.value)

/-- Models the Go type `Sort` (that word is reserved in Lean). -/
structure SortTerm where
  column : String
  direction : String

/-- `Sort.ToSQL`: direction defaults to ASC and becomes DESC exactly when
the lower-cased direction equals "desc". -/
def SortTerm.ToSQL (s : SortTerm) : String :=
  let dir := if strToLower s.direction = "desc" then "DESC" else "ASC"
  s.column ++ " " ++ dir

/-- The WHERE-building loop shared by UpdateWithFilters and
DeleteWithFilters (also Select and Count): each filter contributes its
fragment; its value is appended and the parameter index advanced only when
the value is non-nil.  Returns (clauses, bound values, next index). -/
def buildWhere (filters : List Filter) (paramIndex : Nat) :
    List String × List Value × Nat :=
  match filters with
  | [] => ([], [], paramIndex)
  | f :: rest =>
      let c := f.ToSQL paramIndex
      if c.2.isNull then
        let r := buildWhere rest paramIndex
        (c.1 :: r.1, r.2.1, r.2.2)
      else
        let r := buildWhere rest (paramIndex + 1)
        (c.1 :: r.1, c.2 :: r.2.1, r.2.2)

/-- Query text and bound values built by UpdateWithFilters (after its
guards): sorted SET clause with parameters 1..n, then the filter WHERE
clause continuing the parameter numbering. -/
def updateFiltersQuery (table : String) (set : List (String × Value))
    (filters : List Filter) : String × List Value :=
  let setCols := sortStrings (set.map Prod.fst)
  let setClauses := (numberFrom 1 setCols).map (fun p => p.2 ++ " = " ++ placeholder p.1)
  let setValues := setCols.map (fun c => (alookup c set).getD Value.null)
  let wr := buildWhere filters (setCols.length + 1)
  ("UPDATE " ++ table ++ " SET " ++ joinSep ", " setClauses ++ " WHERE " ++
      joinSep " AND " wr.1,
    setValues ++ wr.2.1)

/-- Query text and bound values built by DeleteWithFilters after its guard. -/
def deleteFiltersQuery (table : String) (filters : List Filter) :
    String × List Value :=
  let wr := buildWhere filters 1
  ("DELETE FROM " ++ table ++ " WHERE " ++ joinSep " AND " wr.1, wr.2.1)

/-- Begin a transaction, execute one freshly built parameterized statement,
commit (or roll back when execution fails). -/
def execTx (env : ExecEnv) (errPrefix query : String) (values : List Value) :
    Except String Int × List Event :=
  match env.execErr query values with
  | some e =>
      (.error (errPrefix ++ e), [Event.beginTx, Event.execSQL query values, Event.rollback])
  | none =>
      (.ok (env.rowsAffected query values),
        [Event.beginTx, Event.execSQL query values, Event.commit])

/-- `UpdateWithFilters` from src/unnamed/part_006 (single attempt of the
retried closure). -/
def UpdateWithFilters (env : ExecEnv) (table : String) (set : List (String × Value))
    (filters : List Filter) (st : MgrState) :
    Except String UpdateResult × MgrState × List Event :=
  if set.isEmpty then (.error "no data provided for update", st, [])
  else if filters.isEmpty then
    (.error "no filters provided for update (safety check)", st, [])
  else
    let (query, values) := updateFiltersQuery table set filters
    match execTx env "failed to execute update: " query values with
    | (.error e, evs) => (.error e, st, evs)
    | (.ok n, evs) => (.ok ⟨n⟩, st, evs)

/-- `DeleteWithFilters` from src/unnamed/part_006 (single attempt of the
retried closure). -/
def DeleteWithFilters (env : ExecEnv) (table : String) (filters : List Filter)
    (st : MgrState) : Except String DeleteResult × MgrState × List Event :=
  if filters.isEmpty then
    (.error "no filters provided for delete (safety check)", st, [])
  else
    let (query, values) := deleteFiltersQuery table filters
    match execTx env "failed to execute delete: " query values with
    | (.error e, evs) => (.error e, st, evs)
    | (.ok n, evs) => (.ok ⟨n⟩, st, evs)

/-! ### Authorizer (src/auth/authorizer.go, types from src/module.go) -/

/-- An API key row (`type APIKey` in src/module.go).  Times are naturals. -/
structure APIKey where
  key : String
  roleName : String
  createdAt : Nat
  expiresAt : Option Nat
  isActive : Bool
deriving DecidableEq, Repr

/-- A permission row (`type Permission` in src/module.go). -/
structure Permission where
  id : Int
  roleName : String
  tableName : String
  canCreate : Bool
  canRead : Bool
  canUpdate : Bool
  canDelete : Bool
  canQuery : Bool
deriving DecidableEq, Repr

/-- The credential store (the two auth tables the claims touch). -/
structure AuthDB where
  apiKeys : List APIKey
  permissions : List Permission
deriving DecidableEq, Repr

/-- The `Authorizer`: credential store plus its two expiring caches
(capacity eviction and the TTL safety net of the LRU caches are not
involved in the claims and are abstracted away; explicit invalidation is
modelled exactly). -/
structure AuthState where
  db : AuthDB
  permissionCache : List (String × Bool)
  apiKeyCache : List (String × APIKey)
deriving DecidableEq, Repr

/-- LRU `Add` (replaces an existing entry for the key). -/
def cacheAdd {α : Type} (k : String) (v : α) (c : List (String × α)) :
    List (String × α) :=
  (k, v) :: c.filter (fun e => !(decide (e.1 = k)))

/-- LRU `Remove`. -/
def cacheRemove {α : Type} (k : String) (c : List (String × α)) :
    List (String × α) :=
  c.filter (fun e => !(decide (e.1 = k)))

/-- `expiresAt != nil && expiresAt.Before(now)` — the expiration test used
both on cached keys and on freshly loaded rows. -/
def isExpired (expiresAt : Option Nat) (now : Nat) : Bool :=
  match expiresAt with
  | some t => decide (t < now)
  | none => false

/-- The SQL of authenticateAPIKeyDB:
`SELECT ... FROM api_keys WHERE key = $1 AND is_active = true` — first row
with the exact key that is still flagged active. -/
def findActiveKey (apiKey : String) : List APIKey → Option APIKey
  | [] => none
  | r :: rest => if r.key = apiKey ∧ r.isActive = true then some r else findActiveKey apiKey rest

/-- `authenticateAPIKeyDB`: no active row is "invalid"; an active row past
its expiration is "expired"; otherwise the key row is returned. -/
def authenticateAPIKeyDB (db : AuthDB) (now : Nat) (apiKey : String) :
    Except String APIKey :=
  match findActiveKey apiKey db.apiKeys with
  | none => .error "invalid API key"
  | some row =>
      if isExpired row.expiresAt now then .error "API key has expired"
      else .ok row

/-- `AuthenticateAPIKey`: a cache hit re-validates expiration against the
current time, evicting and failing if expired; a miss queries the store and
caches a successful result. -/
def AuthenticateAPIKey (st : AuthState) (now : Nat) (apiKey : String) :
    Except String APIKey × AuthState :=
  match alookup apiKey st.apiKeyCache with
  | some cached =>
      if isExpired cached.expiresAt now then
        (.error "API key has expired",
          { st with apiKeyCache := cacheRemove apiKey st.apiKeyCache })
      else (.ok cached, st)
  | none =>
      match authenticateAPIKeyDB st.db now apiKey with
      | .error e => (.error e, st)
      | .ok key => (.ok key, { st with apiKeyCache := cacheAdd apiKey key st.apiKeyCache })

/-- `CreateAPIKey`: INSERT INTO api_keys (key, role_name, expires_at); the
schema defaults fill created_at with the current time and is_active with
true. -/
def CreateAPIKey (st : AuthState) (now : Nat) (apiKey roleName : String)
    (expiresAt : Option Nat) : Except String Unit × AuthState :=
  (.ok (),
    { st with db :=
        { st.db with apiKeys := st.db.apiKeys ++ [⟨apiKey, roleName, now, expiresAt, true⟩] } })

/-- Number of rows the revocation UPDATE matches (its RowsAffected). -/
def countKeyRows (apiKey : String) : List APIKey → Nat
  | [] => 0
  | r :: rest => (if r.key = apiKey then 1 else 0) + countKeyRows apiKey rest

/-- The revocation UPDATE: flips is_active to false on every row with the
key. -/
def deactivateKey (apiKey : String) (rows : List APIKey) : List APIKey :=
  rows.map (fun r => if r.key = apiKey then { r with isActive := false } else r)

/-- `RevokeAPIKey`: UPDATE ... SET is_active = false WHERE key = $1; zero
affected rows is "API key not found"; on success exactly that key is
evicted from the credential cache. -/
def RevokeAPIKey (st : AuthState) (apiKey : String) : Except String Unit × AuthState :=
  let db2 : AuthDB := { st.db with apiKeys := deactivateKey apiKey st.db.apiKeys }
  if countKeyRows apiKey st.db.apiKeys = 0 then
    (.error "API key not found", { st with db := db2 })
  else
    (.ok (), { st with db := db2, apiKeyCache := cacheRemove apiKey st.apiKeyCache })

/-- First permission row matching the role and the given table name. -/
def findPermission (roleName tableName : String) : List Permission → Option Permission
  | [] => none
  | p :: rest =>
      if p.roleName = roleName ∧ p.tableName = tableName then some p
      else findPermission roleName tableName rest

/-- The SQL of checkPermissionDB:
`WHERE role_name = $1 AND (table_name = $2 OR table_name = '*')
 ORDER BY CASE WHEN table_name = $2 THEN 1 ELSE 2 END LIMIT 1` —
an exact-table row is preferred over a wildcard row. -/
def resolvePermission (rows : List Permission) (roleName tableName : String) :
    Option Permission :=
  match findPermission roleName tableName rows with
  | some p => some p
  | none => findPermission roleName "*" rows

/-- `checkPermissionDB`: no matching row (ErrNoRows) is an explicit
`false` with no error; otherwise the operation picks one of the five
boolean columns, and anything else is an unknown-operation error. -/
def checkPermissionDB (db : AuthDB) (roleName tableName operation : String) :
    Except String Bool :=
  match resolvePermission db.permissions roleName tableName with
  | none => .ok false
  | some perm =>
      if operation = "create" then .ok perm.canCreate
      else if operation = "read" then .ok perm.canRead
      else if operation = "update" then .ok perm.canUpdate
      else if operation = "delete" then .ok perm.canDelete
      else if operation = "query" then .ok perm.canQuery
      else .error ("unknown operation: " ++ operation)

/-- Cache key of a permission decision:
`fmt.Sprintf("%s:%s:%s", roleName, tableName, operation)`. -/
def permissionCacheKey (roleName tableName operation : String) : String :=
  roleName ++ ":" ++ tableName ++ ":" ++ operation

/-- `CheckPermission`: composite-key cache in front of checkPermissionDB;
a resolved boolean is cached, an error is returned without caching. -/
def CheckPermission (st : AuthState) (roleName tableName operation : String) :
    Except String Bool × AuthState :=
  let cacheKey := permissionCacheKey roleName tableName operation
  match alookup cacheKey st.permissionCache with
  | some cached => (.ok cached, st)
  | none =>
      match checkPermissionDB st.db roleName tableName operation with
      | .error e => (.error e, st)
      | .ok allowed =>
          (.ok allowed, { st with permissionCache := cacheAdd cacheKey allowed st.permissionCache })

/-- The per-operation column projection of the five recognized operations
(used to state claims about `checkPermissionDB`). -/
def opColumn (operation : String) : Option (Permission → Bool) :=
  if operation = "create" then some (fun p => p.canCreate)
  else if operation = "read" then some (fun p => p.canRead)
  else if operation = "update" then some (fun p => p.canUpdate)
  else if operation = "delete" then some (fun p => p.canDelete)
  else if operation = "query" then some (fun p => p.canQuery)
  else none

/-- The boolean a permission query resolves to: the selected row's column,
or false when neither an exact nor a wildcard row exists. -/
def permissionDecision (rows : List Permission) (roleName tableName : String)
    (f : Permission → Bool) : Bool :=
  match resolvePermission rows roleName tableName with
  | some p => f p
  | none => false

/-! ## Theorems -/

theorem charsLe_total : ∀ a b : List Char, charsLe a b = true ∨ charsLe b a = true
  | [], _ => Or.inl rfl
  | _ :: _, [] => Or.inr rfl
  | x :: xs, y :: ys => by
      by_cases hxy : x < y
      · exact Or.inl (by simp [charsLe, hxy])
      by_cases hyx : y < x
      · exact Or.inr (by simp [charsLe, hyx])
      have heq : x = y := le_antisymm (not_lt.mp hyx) (not_lt.mp hxy)
      subst heq
      rcases charsLe_total xs ys with h | h
      · exact Or.inl (by simp [charsLe, h])
      · exact Or.inr (by simp [charsLe, h])

theorem charsLe_trans :
    ∀ a b c : List Char, charsLe a b = true → charsLe b c = true → charsLe a c = true
  | [], _, _, _, _ => rfl
  | _ :: _, [], _, hab, _ => by simp [charsLe] at hab
  | _ :: _, _ :: _, [], _, hbc => by simp [charsLe] at hbc
  | x :: xs, y :: ys, z :: zs, hab, hbc => by
      simp only [charsLe] at hab hbc ⊢
      by_cases hxy : x < y
      · by_cases hyz : y < z
        · simp [lt_trans hxy hyz]
        by_cases hyz2 : y = z
        · subst hyz2; simp [hxy]
        · simp [hyz, hyz2] at hbc
      by_cases hxy2 : x = y
      · subst hxy2
        by_cases hxz : x < z
        · simp [hxz]
        by_cases hxz2 : x = z
        · subst hxz2
          simp only [lt_irrefl, if_false, if_pos rfl] at hab hbc ⊢
          exact charsLe_trans xs ys zs hab hbc
        · simp [hxz, hxz2] at hbc
      · simp [hxy, hxy2] at hab

theorem charsLe_antisymm :
    ∀ a b : List Char, charsLe a b = true → charsLe b a = true → a = b
  | [], [], _, _ => rfl
  | [], _ :: _, _, hba => by simp [charsLe] at hba
  | _ :: _, [], hab, _ => by simp [charsLe] at hab
  | x :: xs, y :: ys, hab, hba => by
      simp only [charsLe] at hab hba
      by_cases hxy : x < y
      · simp [not_lt_of_gt hxy, (ne_of_lt hxy).symm] at hba
      by_cases hxy2 : x = y
      · subst hxy2
        simp only [lt_irrefl, if_false, if_pos rfl] at hab hba
        rw [charsLe_antisymm xs ys hab hba]
      · simp [hxy, hxy2] at hab

theorem sortStrings_perm (l : List String) : (sortStrings l).Perm l :=
  @List.perm_insertionSort String strLeRel strLeDec l

theorem sortStrings_sorted (l : List String) : List.Sorted strLeRel (sortStrings l) :=
  @List.sorted_insertionSort String strLeRel strLeDec
    ⟨fun a b => charsLe_total a.data b.data⟩
    ⟨fun a b c hab hbc => charsLe_trans a.data b.data c.data hab hbc⟩ l

/-- Canonicalization: the sorted column list depends only on the multiset of
columns, not on the order in which the caller supplied them. -/
theorem sortStrings_canonical {l l' : List String} (h : l.Perm l') :
    sortStrings l = sortStrings l' :=
  @List.eq_of_perm_of_sorted String strLeRel
    ⟨fun a b hab hba => congrArg String.mk (charsLe_antisymm a.data b.data hab hba)⟩
    _ _
    ((sortStrings_perm l).trans (h.trans (sortStrings_perm l').symm))
    (sortStrings_sorted l) (sortStrings_sorted l')

/-! Cache behaviour of the getOrPrepare* family. -/

theorem getOrPrepareInsert_hit {table : String} {columns : List String}
    {st : MgrState} {s : Stmt}
    (h : alookup (insertStmtKey table) st.preparedStmts = some s) :
    getOrPrepareInsert table columns st = (s, st, []) := by
  simp [getOrPrepareInsert, h]

theorem getOrPrepareInsert_lookup (table : String) (columns : List String)
    (st : MgrState) :
    alookup (insertStmtKey table)
        (getOrPrepareInsert table columns st).2.1.preparedStmts =
      some (getOrPrepareInsert table columns st).1
    ∧ (getOrPrepareInsert table columns st).2.1.tableSchemas = st.tableSchemas := by
  cases h : alookup (insertStmtKey table) st.preparedStmts <;>
    simp [getOrPrepareInsert, h, alookup]

theorem insertAttempt_trace (env : ExecEnv) (table : String)
    (data : List (String × Value)) (columns : List String) (st : MgrState) :
    Event.execStmt (getOrPrepareInsert table columns st).1.id
        (normalizeInsertValues data columns) ∈
      (insertAttempt env table data columns st).2.2
    ∧ (insertAttempt env table data columns st).2.1 =
        (getOrPrepareInsert table columns st).2.1 := by
  rcases hg : getOrPrepareInsert table columns st with ⟨stmt, st1, ev1⟩
  simp only [insertAttempt, hg]
  cases he : env.execErr stmt.sql (normalizeInsertValues data columns) <;> simp [he]

theorem Insert_cons (env : ExecEnv) (table : String) (q : String × Value)
    (data : List (String × Value)) (columns : List String) (st : MgrState)
    (hschema : alookup table st.tableSchemas = some columns) :
    Insert env table (q :: data) st = insertAttempt env table (q :: data) columns st := by
  simp [Insert, getTableColumns, hschema]

theorem getOrPrepareUpdate_lookup (table : String) (set whereM : List (String × Value))
    (st : MgrState) :
    alookup (updateStmtKey table (sortStrings (set.map Prod.fst))
        (sortStrings (whereM.map Prod.fst)))
        (getOrPrepareUpdate table set whereM st).2.2.2.1.preparedStmts =
      some (getOrPrepareUpdate table set whereM st).1 := by
  cases h : alookup (updateStmtKey table (sortStrings (set.map Prod.fst))
      (sortStrings (whereM.map Prod.fst))) st.preparedStmts <;>
    simp [getOrPrepareUpdate, h, alookup]

theorem getOrPrepareUpdate_hit {table : String} {set whereM : List (String × Value)}
    {st : MgrState} {s : Stmt}
    (h : alookup (updateStmtKey table (sortStrings (set.map Prod.fst))
        (sortStrings (whereM.map Prod.fst))) st.preparedStmts = some s) :
    (getOrPrepareUpdate table set whereM st).1 = s
    ∧ (getOrPrepareUpdate table set whereM st).2.2.2.1 = st := by
  simp [getOrPrepareUpdate, h]

theorem getOrPrepareDelete_lookup (table : String) (whereM : List (String × Value))
    (st : MgrState) :
    alookup (deleteStmtKey table (sortStrings (whereM.map Prod.fst)))
        (getOrPrepareDelete table whereM st).2.2.1.preparedStmts =
      some (getOrPrepareDelete table whereM st).1 := by
  cases h : alookup (deleteStmtKey table (sortStrings (whereM.map Prod.fst)))
      st.preparedStmts <;>
    simp [getOrPrepareDelete, h, alookup]

theorem getOrPrepareDelete_hit {table : String} {whereM : List (String × Value)}
    {st : MgrState} {s : Stmt}
    (h : alookup (deleteStmtKey table (sortStrings (whereM.map Prod.fst)))
        st.preparedStmts = some s) :
    (getOrPrepareDelete table whereM st).1 = s
    ∧ (getOrPrepareDelete table whereM st).2.2.1 = st := by
  simp [getOrPrepareDelete, h]

/-- C1: the claim asserts that invalidating table "t" never evicts prepared
statements of table "t2".  The code tests only that the raw table name is a
prefix of the cache key, so invalidating "t" does evict the INSERT entry of
"t2": the claim (and the code's own stated intent) is violated at this
input. -/
theorem C1_invalidate_evicts_sibling_table :
    invalidationMatches "t" (insertStmtKey "t2") = true
    ∧ (InvalidateTableSchema "t"
        ⟨[("t2", ["a"])], [(insertStmtKey "t2", ⟨0, "INSERT INTO t2 (a) VALUES ($1)"⟩)], 1⟩
      ).preparedStmts = [] := by
  constructor
  · decide
  · rfl

/-- C2: behaviour of the conflict-retry wrapper.
1. An error that is not classified as a transaction conflict is returned
   immediately after the first attempt, with no backoff sleep.
2. Conflicts on all three attempts exhaust the retry budget: the closure
   runs 3 times, the induced sleeps are 50ms then 100ms (150ms in total,
   the `50*2^attempt` schedule cut off before a third sleep), and the
   terminal error wraps the last conflict error and reports the attempt
   count 3.
3. Conflicts on attempts 1 and 2 followed by success on attempt 3 yield
   overall success after exactly 3 attempts with 150ms (= 50 + 100, hence
   at least 150ms) of induced backoff delay. -/
theorem C2_retryOnConflict_spec :
    (∀ fn e, fn 0 = some e → isTransactionConflict (some e) = false →
      retryOnConflict fn = ⟨some e, 1, 0⟩)
    ∧ (∀ fn e0 e1 e2,
        fn 0 = some e0 → fn 1 = some e1 → fn 2 = some e2 →
        isTransactionConflict (some e0) = true →
        isTransactionConflict (some e1) = true →
        isTransactionConflict (some e2) = true →
        retryOnConflict fn =
          ⟨some ("transaction failed after 3 retries: " ++ e2), 3, 150⟩)
    ∧ (∀ fn e0 e1,
        fn 0 = some e0 → fn 1 = some e1 → fn 2 = none →
        isTransactionConflict (some e0) = true →
        isTransactionConflict (some e1) = true →
        retryOnConflict fn = ⟨none, 3, 150⟩ ∧ 150 ≤ (retryOnConflict fn).sleptMs) := by
  refine ⟨?_, ?_, ?_⟩
  · intro fn e h0 hc
    simp [retryOnConflict, retryLoop, h0, hc, maxRetries]
  · intro fn e0 e1 e2 h0 h1 h2 hc0 hc1 hc2
    simp only [retryOnConflict, retryLoop, h0, h1, h2, hc0, hc1, hc2, maxRetries,
      baseRetryDelayMs, if_true, reduceIte]
    congr 1
  · intro fn e0 e1 h0 h1 h2 hc0 hc1
    have hloop : retryOnConflict fn = ⟨none, 3, 150⟩ := by
      simp [retryOnConflict, retryLoop, h0, h1, h2, hc0, hc1, maxRetries,
        baseRetryDelayMs]
    exact ⟨hloop, by rw [hloop]⟩

/-- Witness for C2: a closure that raises a transaction conflict on its
first two attempts and succeeds on the third. -/
theorem C2_retryOnConflict_spec_witness :
    retryOnConflict (fun n => if n < 2 then some "Transaction conflict detected" else none)
      = ⟨none, 3, 150⟩
    ∧ 150 ≤ (retryOnConflict
        (fun n => if n < 2 then some "Transaction conflict detected" else none)).sleptMs :=
  C2_retryOnConflict_spec.2.2
    (fun n => if n < 2 then some "Transaction conflict detected" else none)
    "Transaction conflict detected" "Transaction conflict detected"
    rfl rfl rfl (by decide) (by decide)

/-- C3: every mutation rejects a degenerate input before doing anything:
Insert with an empty field map, Update / UpdateWithFilters with an empty SET
map or empty WHERE map / filter list, Delete / DeleteWithFilters with an
empty WHERE map / filter list each return an error with the state unchanged
and an empty engine-event trace (so no transaction is begun and no cache is
touched).  Moreover the queries built for non-empty filter lists always
carry a WHERE clause, so no unconditional UPDATE or DELETE text is ever
produced. -/
theorem C3_empty_input_guards :
    (∀ env table st, Insert env table [] st =
        (.error "no data provided for insert", st, []))
    ∧ (∀ env table whereM st, Update env table [] whereM st =
        (.error "no data provided for update", st, []))
    ∧ (∀ env table p rest st, Update env table (p :: rest) [] st =
        (.error "no where clause provided for update (use DELETE with caution)", st, []))
    ∧ (∀ env table filters st, UpdateWithFilters env table [] filters st =
        (.error "no data provided for update", st, []))
    ∧ (∀ env table p rest st, UpdateWithFilters env table (p :: rest) [] st =
        (.error "no filters provided for update (safety check)", st, []))
    ∧ (∀ env table st, Delete env table [] st =
        (.error "no where clause provided for delete (safety check)", st, []))
    ∧ (∀ env table st, DeleteWithFilters env table [] st =
        (.error "no filters provided for delete (safety check)", st, []))
    ∧ (∀ table set f fs, ∃ pre post,
        (updateFiltersQuery table set (f :: fs)).1 = pre ++ " WHERE " ++ post)
    ∧ (∀ table f fs, ∃ pre post,
        (deleteFiltersQuery table (f :: fs)).1 = pre ++ " WHERE " ++ post) := by
  refine ⟨fun env table st => rfl, fun env table whereM st => rfl,
    fun env table p rest st => rfl, fun env table filters st => rfl,
    fun env table p rest st => rfl, fun env table st => rfl,
    fun env table st => rfl, ?_, ?_⟩
  · intro table set f fs
    exact ⟨"UPDATE " ++ table ++ " SET " ++
        joinSep ", " ((numberFrom 1 (sortStrings (set.map Prod.fst))).map
          (fun p => p.2 ++ " = " ++ placeholder p.1)),
      joinSep " AND "
        (buildWhere (f :: fs) ((sortStrings (set.map Prod.fst)).length + 1)).1,
      rfl⟩
  · intro table f fs
    exact ⟨"DELETE FROM " ++ table,
      joinSep " AND " (buildWhere (f :: fs) 1).1, rfl⟩

/-- C9: each of the six comparison operators produces its operator symbol
binding exactly the filter's value at the given positional parameter; `like`
and `in` bind the value as-is; the produced SQL fragment never depends on
(never interpolates) the bound value; and the sort direction normalizes
case-insensitively to DESC exactly for case-variants of "desc", defaulting
to ASC otherwise. -/
theorem C9_filter_sort_translation :
    (∀ col v n, Filter.ToSQL ⟨col, "eq", v⟩ n = (col ++ " = " ++ placeholder n, v))
    ∧ (∀ col v n, Filter.ToSQL ⟨col, "ne", v⟩ n = (col ++ " != " ++ placeholder n, v))
    ∧ (∀ col v n, Filter.ToSQL ⟨col, "gt", v⟩ n = (col ++ " > " ++ placeholder n, v))
    ∧ (∀ col v n, Filter.ToSQL ⟨col, "gte", v⟩ n = (col ++ " >= " ++ placeholder n, v))
    ∧ (∀ col v n, Filter.ToSQL ⟨col, "lt", v⟩ n = (col ++ " < " ++ placeholder n, v))
    ∧ (∀ col v n, Filter.ToSQL ⟨col, "lte", v⟩ n = (col ++ " <= " ++ placeholder n, v))
    ∧ (∀ col v n, Filter.ToSQL ⟨col, "like", v⟩ n = (col ++ " LIKE " ++ placeholder n, v))
    ∧ (∀ col v n, Filter.ToSQL ⟨col, "in", v⟩ n = (col ++ " IN " ++ placeholder n, v))
    ∧ (∀ col op v v2 n,
        (Filter.ToSQL ⟨col, op, v⟩ n).1 = (Filter.ToSQL ⟨col, op, v2⟩ n).1)
    ∧ (∀ col dir, strToLower dir = "desc" → SortTerm.ToSQL ⟨col, dir⟩ = col ++ " DESC")
    ∧ (∀ col dir, strToLower dir ≠ "desc" → SortTerm.ToSQL ⟨col, dir⟩ = col ++ " ASC") := by
  refine ⟨fun col v n => rfl, fun col v n => rfl, fun col v n => rfl, fun col v n => rfl,
    fun col v n => rfl, fun col v n => rfl, fun col v n => rfl, fun col v n => rfl,
    ?_, ?_, ?_⟩
  · intro col op v v2 n
    simp only [Filter.ToSQL]
    split_ifs <;> rfl
  · intro col dir h
    simp only [SortTerm.ToSQL, h, reduceIte]
    rw [String.append_assoc]
    rfl
  · intro col dir h
    simp only [SortTerm.ToSQL, if_neg h]
    rw [String.append_assoc]
    rfl

/-- Witness for C9: a mixed-case direction "DeSc" is normalized to DESC. -/
theorem C9_filter_sort_translation_witness :
    SortTerm.ToSQL ⟨"created_at", "DeSc"⟩ = "created_at" ++ " DESC" :=
  C9_filter_sort_translation.2.2.2.2.2.2.2.2.2.1 "created_at" "DeSc" rfl

/-- C10: a filter whose operator is none of the eight defined ones does not
fail: `ToSQL` silently produces exactly the equality translation for the
same column, parameter index and value. -/
theorem C10_unknown_operator_defaults_to_eq (col : String) (v : Value) (n : Nat)
    (op : String) (h : op ∉ ["eq", "ne", "gt", "gte", "lt", "lte", "like", "in"]) :
    Filter.ToSQL ⟨col, op, v⟩ n = Filter.ToSQL ⟨col, "eq", v⟩ n := by
  simp only [List.mem_cons, List.not_mem_nil, or_false, not_or] at h
  obtain ⟨h1, h2, h3, h4, h5, h6, h7, h8⟩ := h
  simp [Filter.ToSQL, h1, h2, h3, h4, h5, h6, h7, h8]

/-- Witness for C10 at the undefined operator "regex". -/
theorem C10_unknown_operator_defaults_to_eq_witness :
    Filter.ToSQL ⟨"age", "regex", Value.int 21⟩ 2 =
      Filter.ToSQL ⟨"age", "eq", Value.int 21⟩ 2 :=
  C10_unknown_operator_defaults_to_eq "age" (Value.int 21) 2 "regex" (by decide)

/-- C7: an insert always binds the table's full ordered column list — the
bound list has one slot per column, carrying the caller's value for columns
present in the field map and NULL for omitted ones — and two inserts on the
same table with different field subsets execute statements with the same
handle (the second call hits the per-table cache entry stored or found by
the first, whose key does not depend on the field map). -/
theorem C7_insert_binds_full_columns (env : ExecEnv) (table : String)
    (q1 q2 : String × Value) (data1 data2 : List (String × Value))
    (columns : List String) (st : MgrState)
    (hschema : alookup table st.tableSchemas = some columns) :
    (normalizeInsertValues (q1 :: data1) columns).length = columns.length
    ∧ (∀ i : Nat, (normalizeInsertValues (q1 :: data1) columns)[i]? =
        columns[i]?.map (fun col => (alookup col (q1 :: data1)).getD Value.null))
    ∧ (∃ sid,
        Event.execStmt sid (normalizeInsertValues (q1 :: data1) columns) ∈
          (Insert env table (q1 :: data1) st).2.2 ∧
        Event.execStmt sid (normalizeInsertValues (q2 :: data2) columns) ∈
          (Insert env table (q2 :: data2) (Insert env table (q1 :: data1) st).2.1).2.2) := by
  refine ⟨by simp [normalizeInsertValues], ?_, ?_⟩
  · intro i
    simp only [normalizeInsertValues, List.getElem?_map]
    cases columns[i]? with
    | none => rfl
    | some col =>
        simp only [Option.map_some']
        cases alookup col (q1 :: data1) <;> rfl
  · have hIns1 := Insert_cons env table q1 data1 columns st hschema
    have h1 := insertAttempt_trace env table (q1 :: data1) columns st
    have hlk := getOrPrepareInsert_lookup table columns st
    have hstate : (Insert env table (q1 :: data1) st).2.1 =
        (getOrPrepareInsert table columns st).2.1 := by rw [hIns1, h1.2]
    have hschema1 : alookup table (Insert env table (q1 :: data1) st).2.1.tableSchemas =
        some columns := by rw [hstate, hlk.2]; exact hschema
    have hhit : getOrPrepareInsert table columns (Insert env table (q1 :: data1) st).2.1 =
        ((getOrPrepareInsert table columns st).1,
          (Insert env table (q1 :: data1) st).2.1, []) := by
      apply getOrPrepareInsert_hit
      rw [hstate]
      exact hlk.1
    have hIns2 := Insert_cons env table q2 data2 columns
      (Insert env table (q1 :: data1) st).2.1 hschema1
    have h2 := insertAttempt_trace env table (q2 :: data2) columns
      (Insert env table (q1 :: data1) st).2.1
    refine ⟨(getOrPrepareInsert table columns st).1.id, ?_, ?_⟩
    · rw [hIns1]
      exact h1.1
    · rw [hIns2]
      have := h2.1
      rw [hhit] at this
      exact this

/-- Witness for C7: table "users" with columns id, name, email; the first
insert supplies only id, the second only name. -/
theorem C7_insert_binds_full_columns_witness :
    (normalizeInsertValues (("id", Value.int 1) :: [])
        ["id", "name", "email"]).length = (["id", "name", "email"] : List String).length
    ∧ (∀ i : Nat, (normalizeInsertValues (("id", Value.int 1) :: []) ["id", "name", "email"])[i]? =
        (["id", "name", "email"] : List String)[i]?.map
          (fun col => (alookup col (("id", Value.int 1) :: [])).getD Value.null))
    ∧ (∃ sid,
        Event.execStmt sid
            (normalizeInsertValues (("id", Value.int 1) :: []) ["id", "name", "email"]) ∈
          (Insert ⟨fun _ => [], fun _ _ => none, fun _ _ => 1⟩ "users"
            (("id", Value.int 1) :: [])
            ⟨[("users", ["id", "name", "email"])], [], 0⟩).2.2 ∧
        Event.execStmt sid
            (normalizeInsertValues (("name", Value.str "ada") :: []) ["id", "name", "email"]) ∈
          (Insert ⟨fun _ => [], fun _ _ => none, fun _ _ => 1⟩ "users"
            (("name", Value.str "ada") :: [])
            ((Insert ⟨fun _ => [], fun _ _ => none, fun _ _ => 1⟩ "users"
              (("id", Value.int 1) :: [])
              ⟨[("users", ["id", "name", "email"])], [], 0⟩).2.1)).2.2) :=
  C7_insert_binds_full_columns ⟨fun _ => [], fun _ _ => none, fun _ _ => 1⟩ "users"
    ("id", Value.int 1) ("name", Value.str "ada") [] []
    ["id", "name", "email"] ⟨[("users", ["id", "name", "email"])], [], 0⟩ rfl

/-- C8: statement-cache keys are built from the sorted column lists, so two
update calls whose SET and WHERE column multisets agree (in any supply
order) build the identical key — likewise two delete calls with the same
WHERE column multiset — and re-requesting the cache with the permuted
column sets returns the identical statement instance while leaving the
cache untouched. -/
theorem C8_canonical_statement_cache (table : String)
    (set1 set2 wh1 wh2 : List (String × Value)) (st : MgrState)
    (hs : (set1.map Prod.fst).Perm (set2.map Prod.fst))
    (hw : (wh1.map Prod.fst).Perm (wh2.map Prod.fst)) :
    updateStmtKey table (sortStrings (set1.map Prod.fst)) (sortStrings (wh1.map Prod.fst)) =
      updateStmtKey table (sortStrings (set2.map Prod.fst)) (sortStrings (wh2.map Prod.fst))
    ∧ deleteStmtKey table (sortStrings (wh1.map Prod.fst)) =
        deleteStmtKey table (sortStrings (wh2.map Prod.fst))
    ∧ (getOrPrepareUpdate table set2 wh2 (getOrPrepareUpdate table set1 wh1 st).2.2.2.1).1 =
        (getOrPrepareUpdate table set1 wh1 st).1
    ∧ (getOrPrepareUpdate table set2 wh2
          (getOrPrepareUpdate table set1 wh1 st).2.2.2.1).2.2.2.1 =
        (getOrPrepareUpdate table set1 wh1 st).2.2.2.1
    ∧ (getOrPrepareDelete table wh2 (getOrPrepareDelete table wh1 st).2.2.1).1 =
        (getOrPrepareDelete table wh1 st).1
    ∧ (getOrPrepareDelete table wh2 (getOrPrepareDelete table wh1 st).2.2.1).2.2.1 =
        (getOrPrepareDelete table wh1 st).2.2.1 := by
  have hset := sortStrings_canonical hs
  have hwh := sortStrings_canonical hw
  have hkeyU : updateStmtKey table (sortStrings (set1.map Prod.fst))
      (sortStrings (wh1.map Prod.fst)) =
      updateStmtKey table (sortStrings (set2.map Prod.fst))
        (sortStrings (wh2.map Prod.fst)) := by rw [hset, hwh]
  have hkeyD : deleteStmtKey table (sortStrings (wh1.map Prod.fst)) =
      deleteStmtKey table (sortStrings (wh2.map Prod.fst)) := by rw [hwh]
  have hlU := getOrPrepareUpdate_lookup table set1 wh1 st
  rw [hkeyU] at hlU
  have hlD := getOrPrepareDelete_lookup table wh1 st
  rw [hkeyD] at hlD
  exact ⟨hkeyU, hkeyD, (getOrPrepareUpdate_hit hlU).1, (getOrPrepareUpdate_hit hlU).2,
    (getOrPrepareDelete_hit hlD).1, (getOrPrepareDelete_hit hlD).2⟩

/-- Witness for C8: SET columns supplied as b,a versus a,b and WHERE
columns as y,x versus x,y on an empty cache. -/
theorem C8_canonical_statement_cache_witness :
    updateStmtKey "users"
        (sortStrings ([("b", Value.int 1), ("a", Value.int 2)].map Prod.fst))
        (sortStrings ([("y", Value.int 3), ("x", Value.int 4)].map Prod.fst)) =
      updateStmtKey "users"
        (sortStrings ([("a", Value.int 2), ("b", Value.int 1)].map Prod.fst))
        (sortStrings ([("x", Value.int 4), ("y", Value.int 3)].map Prod.fst))
    ∧ deleteStmtKey "users"
        (sortStrings ([("y", Value.int 3), ("x", Value.int 4)].map Prod.fst)) =
        deleteStmtKey "users"
          (sortStrings ([("x", Value.int 4), ("y", Value.int 3)].map Prod.fst))
    ∧ (getOrPrepareUpdate "users" [("a", Value.int 2), ("b", Value.int 1)]
          [("x", Value.int 4), ("y", Value.int 3)]
          (getOrPrepareUpdate "users" [("b", Value.int 1), ("a", Value.int 2)]
            [("y", Value.int 3), ("x", Value.int 4)] ⟨[], [], 0⟩).2.2.2.1).1 =
        (getOrPrepareUpdate "users" [("b", Value.int 1), ("a", Value.int 2)]
          [("y", Value.int 3), ("x", Value.int 4)] ⟨[], [], 0⟩).1
    ∧ (getOrPrepareUpdate "users" [("a", Value.int 2), ("b", Value.int 1)]
          [("x", Value.int 4), ("y", Value.int 3)]
          (getOrPrepareUpdate "users" [("b", Value.int 1), ("a", Value.int 2)]
            [("y", Value.int 3), ("x", Value.int 4)] ⟨[], [], 0⟩).2.2.2.1).2.2.2.1 =
        (getOrPrepareUpdate "users" [("b", Value.int 1), ("a", Value.int 2)]
          [("y", Value.int 3), ("x", Value.int 4)] ⟨[], [], 0⟩).2.2.2.1
    ∧ (getOrPrepareDelete "users" [("x", Value.int 4), ("y", Value.int 3)]
          (getOrPrepareDelete "users" [("y", Value.int 3), ("x", Value.int 4)]
            ⟨[], [], 0⟩).2.2.1).1 =
        (getOrPrepareDelete "users" [("y", Value.int 3), ("x", Value.int 4)] ⟨[], [], 0⟩).1
    ∧ (getOrPrepareDelete "users" [("x", Value.int 4), ("y", Value.int 3)]
          (getOrPrepareDelete "users" [("y", Value.int 3), ("x", Value.int 4)]
            ⟨[], [], 0⟩).2.2.1).2.2.1 =
        (getOrPrepareDelete "users" [("y", Value.int 3), ("x", Value.int 4)]
          ⟨[], [], 0⟩).2.2.1 :=
  C8_canonical_statement_cache "users"
    [("b", Value.int 1), ("a", Value.int 2)] [("a", Value.int 2), ("b", Value.int 1)]
    [("y", Value.int 3), ("x", Value.int 4)] [("x", Value.int 4), ("y", Value.int 3)]
    ⟨[], [], 0⟩ (List.Perm.swap "a" "b" []) (List.Perm.swap "x" "y" [])

/-! Authorizer lemmas. -/

theorem checkPermissionDB_opColumn (db : AuthDB) (roleName tableName operation : String)
    (f : Permission → Bool) (hop : opColumn operation = some f) :
    checkPermissionDB db roleName tableName operation =
      .ok (permissionDecision db.permissions roleName tableName f) := by
  unfold opColumn at hop
  by_cases h1 : operation = "create"
  · subst h1
    simp only [if_pos rfl] at hop
    obtain rfl : (fun p : Permission => p.canCreate) = f := Option.some.inj hop
    cases hr : resolvePermission db.permissions roleName tableName <;>
      simp [checkPermissionDB, permissionDecision, hr]
  by_cases h2 : operation = "read"
  · subst h2
    simp only [if_neg (by decide : ¬("read" = "create")), if_pos rfl] at hop
    obtain rfl : (fun p : Permission => p.canRead) = f := Option.some.inj hop
    cases hr : resolvePermission db.permissions roleName tableName <;>
      simp [checkPermissionDB, permissionDecision, hr]
  by_cases h3 : operation = "update"
  · subst h3
    simp only [if_neg (by decide : ¬("update" = "create")),
      if_neg (by decide : ¬("update" = "read")), if_pos rfl] at hop
    obtain rfl : (fun p : Permission => p.canUpdate) = f := Option.some.inj hop
    cases hr : resolvePermission db.permissions roleName tableName <;>
      simp [checkPermissionDB, permissionDecision, hr]
  by_cases h4 : operation = "delete"
  · subst h4
    simp only [if_neg (by decide : ¬("delete" = "create")),
      if_neg (by decide : ¬("delete" = "read")),
      if_neg (by decide : ¬("delete" = "update")), if_pos rfl] at hop
    obtain rfl : (fun p : Permission => p.canDelete) = f := Option.some.inj hop
    cases hr : resolvePermission db.permissions roleName tableName <;>
      simp [checkPermissionDB, permissionDecision, hr]
  by_cases h5 : operation = "query"
  · subst h5
    simp only [if_neg (by decide : ¬("query" = "create")),
      if_neg (by decide : ¬("query" = "read")),
      if_neg (by decide : ¬("query" = "update")),
      if_neg (by decide : ¬("query" = "delete")), if_pos rfl] at hop
    obtain rfl : (fun p : Permission => p.canQuery) = f := Option.some.inj hop
    cases hr : resolvePermission db.permissions roleName tableName <;>
      simp [checkPermissionDB, permissionDecision, hr]
  · simp only [if_neg h1, if_neg h2, if_neg h3, if_neg h4, if_neg h5] at hop
    exact Option.noConfusion hop

theorem opColumn_none_cases {operation : String} (hop : opColumn operation = none) :
    operation ≠ "create" ∧ operation ≠ "read" ∧ operation ≠ "update" ∧
      operation ≠ "delete" ∧ operation ≠ "query" := by
  unfold opColumn at hop
  by_cases h1 : operation = "create"
  · simp [h1] at hop
  by_cases h2 : operation = "read"
  · simp [h2] at hop
  by_cases h3 : operation = "update"
  · simp [h3] at hop
  by_cases h4 : operation = "delete"
  · simp [h4] at hop
  by_cases h5 : operation = "query"
  · simp [h5] at hop
  exact ⟨h1, h2, h3, h4, h5⟩

/-- C4: on a permission-cache miss, the decision is resolved from the
permission store preferring an exact-table row over a wildcard row
(`resolvePermission` tries the exact table first and falls back to '*'),
mapped through the operation's boolean column, cached under the composite
key and returned; when the role has neither an exact nor a wildcard row the
result is an explicit `ok false` with no error (and that false is cached). -/
theorem C4_checkPermission_resolution (st : AuthState)
    (roleName tableName operation : String)
    (hmiss : alookup (permissionCacheKey roleName tableName operation)
        st.permissionCache = none) :
    (∀ rows p, findPermission roleName tableName rows = some p →
      resolvePermission rows roleName tableName = some p)
    ∧ (∀ rows, findPermission roleName tableName rows = none →
        resolvePermission rows roleName tableName = findPermission roleName "*" rows)
    ∧ (∀ f, opColumn operation = some f →
        CheckPermission st roleName tableName operation =
          (.ok (permissionDecision st.db.permissions roleName tableName f),
            { st with permissionCache :=
                (cacheAdd (permissionCacheKey roleName tableName operation)
                  (permissionDecision st.db.permissions roleName tableName f)
                  st.permissionCache) }))
    ∧ (resolvePermission st.db.permissions roleName tableName = none →
        CheckPermission st roleName tableName operation =
          (.ok false,
            { st with permissionCache :=
                (cacheAdd (permissionCacheKey roleName tableName operation) false
                  st.permissionCache) })) := by
  refine ⟨?_, ?_, ?_, ?_⟩
  · intro rows p h
    simp [resolvePermission, h]
  · intro rows h
    simp [resolvePermission, h]
  · intro f hop
    simp only [CheckPermission, hmiss, checkPermissionDB_opColumn st.db roleName
      tableName operation f hop]
  · intro hres
    simp only [CheckPermission, hmiss, checkPermissionDB, hres]

/-- Witness for C4: role "analyst" holds (orders, read) only; on an empty
cache, checkPermission("analyst","orders","read") resolves to true and is
cached under "analyst:orders:read". -/
theorem C4_checkPermission_resolution_witness :
    CheckPermission
        ⟨⟨[], [⟨1, "analyst", "orders", false, true, false, false, false⟩]⟩, [], []⟩
        "analyst" "orders" "read" =
      (.ok true,
        ⟨⟨[], [⟨1, "analyst", "orders", false, true, false, false, false⟩]⟩,
          [("analyst:orders:read", true)], []⟩) :=
  (C4_checkPermission_resolution
      ⟨⟨[], [⟨1, "analyst", "orders", false, true, false, false, false⟩]⟩, [], []⟩
      "analyst" "orders" "read" rfl).2.2.1 (fun p => p.canRead) rfl

/-- C5 counterexample: with no permission rows at all (so neither an
exact-table nor a wildcard row exists), CheckPermission of the unrecognized
operation "frobnicate" returns an explicit `ok false` with no error — the
claim that every unrecognized operation produces an error is false on this
input. -/
theorem C5_counterexample_no_row_silent_false :
    CheckPermission ⟨⟨[], []⟩, [], []⟩ "analyst" "invoices" "frobnicate" =
      (.ok false, ⟨⟨[], []⟩, [("analyst:invoices:frobnicate", false)], []⟩) := rfl

/-- C5 (amended): when the permission cache misses and a permission row
(exact or wildcard) resolves for the role and table, an operation outside
the five recognized ones is rejected with an unknown-operation error and
nothing is cached; when no row resolves, the code returns `ok false`
without validating the operation. -/
theorem C5_unknown_operation_error (st : AuthState)
    (roleName tableName operation : String) (p : Permission)
    (hmiss : alookup (permissionCacheKey roleName tableName operation)
        st.permissionCache = none)
    (hres : resolvePermission st.db.permissions roleName tableName = some p)
    (hop : opColumn operation = none) :
    CheckPermission st roleName tableName operation =
      (.error ("unknown operation: " ++ operation), st) := by
  obtain ⟨h1, h2, h3, h4, h5⟩ := opColumn_none_cases hop
  simp only [CheckPermission, hmiss, checkPermissionDB, hres]
  simp [h1, h2, h3, h4, h5]

/-- Witness for C5's amended statement: a wildcard row exists for the role,
and the unrecognized operation "frobnicate" is rejected with an error. -/
theorem C5_unknown_operation_error_witness :
    CheckPermission
        ⟨⟨[], [⟨1, "analyst", "*", false, true, false, false, true⟩]⟩, [], []⟩
        "analyst" "invoices" "frobnicate" =
      (.error ("unknown operation: " ++ "frobnicate"),
        ⟨⟨[], [⟨1, "analyst", "*", false, true, false, false, true⟩]⟩, [], []⟩) :=
  C5_unknown_operation_error
    ⟨⟨[], [⟨1, "analyst", "*", false, true, false, false, true⟩]⟩, [], []⟩
    "analyst" "invoices" "frobnicate"
    ⟨1, "analyst", "*", false, true, false, false, true⟩ rfl rfl rfl

theorem alookup_cacheRemove {α : Type} (k : String) (c : List (String × α)) :
    alookup k (cacheRemove k c) = none := by
  induction c with
  | nil => rfl
  | cons e rest ih =>
      simp only [cacheRemove, List.filter] at ih ⊢
      by_cases h : e.1 = k
      · simpa [h] using ih
      · simpa [alookup, h] using ih

theorem findActiveKey_deactivate (k : String) (rows : List APIKey) :
    findActiveKey k (deactivateKey k rows) = none := by
  induction rows with
  | nil => rfl
  | cons r rest ih =>
      simp only [deactivateKey, List.map_cons] at ih ⊢
      by_cases h : r.key = k
      · simpa [findActiveKey, h] using ih
      · simpa [findActiveKey, h] using ih

theorem findActiveKey_append (k : String) (l1 l2 : List APIKey)
    (h : findActiveKey k l1 = none) :
    findActiveKey k (l1 ++ l2) = findActiveKey k l2 := by
  induction l1 with
  | nil => rfl
  | cons r rest ih =>
      simp only [findActiveKey, List.cons_append] at h ⊢
      by_cases hc : r.key = k ∧ r.isActive = true
      · simp [hc] at h
      · simp only [if_neg hc] at h ⊢
        exact ih h

/-- C6: behaviour of API-key authentication and revocation.
1. A cache hit re-checks expiration against the current time; an expired
   cached key is evicted and authentication fails "expired".
2. A cache hit that is still valid is returned unchanged.
3. A cache miss with no active stored row fails "invalid" (rows flipped
   inactive are invisible to the active-key query).
4. A cache miss finding an active but expired row fails "expired".
5. A cache miss finding an active valid row caches and returns it.
6. A key created already expired fails on its very first authentication.
7. After a successful RevokeAPIKey (which flips the row inactive and evicts
   exactly that key), the very next authentication fails "invalid". -/
theorem C6_authenticate_api_key (st : AuthState) (now now2 : Nat)
    (k roleName : String) :
    (∀ ck, alookup k st.apiKeyCache = some ck → isExpired ck.expiresAt now = true →
      AuthenticateAPIKey st now k =
        (.error "API key has expired",
          { st with apiKeyCache := cacheRemove k st.apiKeyCache }))
    ∧ (∀ ck, alookup k st.apiKeyCache = some ck → isExpired ck.expiresAt now = false →
        AuthenticateAPIKey st now k = (.ok ck, st))
    ∧ (alookup k st.apiKeyCache = none → findActiveKey k st.db.apiKeys = none →
        AuthenticateAPIKey st now k = (.error "invalid API key", st))
    ∧ (∀ row, alookup k st.apiKeyCache = none →
        findActiveKey k st.db.apiKeys = some row → isExpired row.expiresAt now = true →
        AuthenticateAPIKey st now k = (.error "API key has expired", st))
    ∧ (∀ row, alookup k st.apiKeyCache = none →
        findActiveKey k st.db.apiKeys = some row → isExpired row.expiresAt now = false →
        AuthenticateAPIKey st now k =
          (.ok row, { st with apiKeyCache := cacheAdd k row st.apiKeyCache }))
    ∧ (∀ t, alookup k st.apiKeyCache = none → findActiveKey k st.db.apiKeys = none →
        t < now →
        (AuthenticateAPIKey (CreateAPIKey st now2 k roleName (some t)).2 now k).1 =
          .error "API key has expired")
    ∧ ((RevokeAPIKey st k).1 = .ok () →
        AuthenticateAPIKey (RevokeAPIKey st k).2 now k =
          (.error "invalid API key", (RevokeAPIKey st k).2)) := by
  refine ⟨?_, ?_, ?_, ?_, ?_, ?_, ?_⟩
  · intro ck hc he
    simp [AuthenticateAPIKey, hc, he]
  · intro ck hc he
    simp [AuthenticateAPIKey, hc, he]
  · intro hc hdb
    simp [AuthenticateAPIKey, hc, authenticateAPIKeyDB, hdb]
  · intro row hc hdb he
    simp [AuthenticateAPIKey, hc, authenticateAPIKeyDB, hdb, he]
  · intro row hc hdb he
    simp [AuthenticateAPIKey, hc, authenticateAPIKeyDB, hdb, he]
  · intro t hc hdb ht
    have happ := findActiveKey_append k st.db.apiKeys
      [⟨k, roleName, now2, some t, true⟩] hdb
    simp only [CreateAPIKey]
    simp [AuthenticateAPIKey, hc, authenticateAPIKeyDB, happ, findActiveKey,
      isExpired, ht]
  · intro hrev
    by_cases hz : countKeyRows k st.db.apiKeys = 0
    · simp [RevokeAPIKey, hz] at hrev
    · simp only [RevokeAPIKey, if_neg hz]
      simp [AuthenticateAPIKey, alookup_cacheRemove, authenticateAPIKeyDB,
        findActiveKey_deactivate]

/-- Witness for C6: a key created at time 50 with expiration 99 fails its
very first authentication at time 100 with the expired error. -/
theorem C6_authenticate_api_key_witness :
    (AuthenticateAPIKey
        (CreateAPIKey ⟨⟨[], []⟩, [], []⟩ 50 "K1" "analyst" (some 99)).2 100 "K1").1 =
      .error "API key has expired" :=
  (C6_authenticate_api_key ⟨⟨[], []⟩, [], []⟩ 100 50 "K1"
    "analyst").2.2.2.2.2.1 99 rfl rfl (by decide)

end CaddyDuckDB
